import Mathlib

/-!
Shallow embedding of the pagination/caching/search slice of the
`prueba-blossom` character browser:

* `SearchCache` — the in-memory TTL cache (`src/services/cache/SearchCache.ts`),
  with the JavaScript clock made explicit (`now : Nat` passed to `get`/`set`).
* `getCacheKey`, `loadData`, `cleanAndApplyFilters`, `loadNextPage` — the
  pagination/search controller (`src/hooks/useCharacters.ts`), modelled as a
  pure state-transition function over `HookState`; the asynchronous network
  fetch is made explicit as a `FetchOutcome` argument consulted only on a
  cache miss.
* `debounceInvocations` — the debounce helper (`src/helpers`), modelled as a
  function from the timed call trace to the schedule of wrapped-function
  invocations that the timers produce.
* `handleApplyFilters` — the presentation selection controller
  (`useCharactersPage`).
* `GraphQLClient.request` / `CharacterService.getCharacters` — the transport
  layer, modelled over an explicit `HttpOutcome`.
-/

namespace Blossom

/-! ## Data model (src/interfaces/Character.tsx) -/

/-- Nested `origin` / `location` reference: only the name is fetched. -/
structure PlaceRef where
  name : String
deriving DecidableEq

/-- Entry of the `episode` array of a character. -/
structure EpisodeRef where
  id : String
  name : String
deriving DecidableEq

/-- `CharacterInterface` from `src/interfaces/Character.tsx`. -/
structure CharacterInterface where
  id : Nat
  name : String
  status : String
  species : String
  type : String
  gender : String
  origin : PlaceRef
  location : PlaceRef
  image : String
  episode : List EpisodeRef
  created : String
deriving DecidableEq

/-- `PaginationInfo` from `src/interfaces/Character.tsx`. -/
structure PaginationInfo where
  count : Nat
  pages : Nat
  next : Option Nat
  prev : Option Nat
deriving DecidableEq

/-- `CharactersResponse` from `src/interfaces/Character.tsx`. -/
structure CharactersResponse where
  info : PaginationInfo
  results : List CharacterInterface
deriving DecidableEq

/-! ## TTL cache (src/services/cache/SearchCache.ts)

The JS `Map<string, CachedData<unknown>>` is modelled as an association list
with string keys; `Date.now()` is modelled by an explicit `now : Nat`
argument (milliseconds). -/

/-- `CachedData<T>`: the stored value together with the time it was cached. -/
structure CachedData (T : Type) where
  data : T
  timestamp : Nat
deriving DecidableEq

/-- `Map.get`: first entry whose key matches. -/
def mapGet {β : Type} (m : List (String × β)) (k : String) : Option β :=
  (m.find? (fun p => p.1 == k)).map (fun p => p.2)

/-- `Map.delete`: drop every entry with the given key. -/
def mapDelete {β : Type} (m : List (String × β)) (k : String) : List (String × β) :=
  m.filter (fun p => p.1 != k)

/-- `Map.set`: replace any existing entry for the key by the new one. -/
def mapSet {β : Type} (m : List (String × β)) (k : String) (v : β) : List (String × β) :=
  mapDelete m k ++ [(k, v)]

/-- `SearchCache`: entry map plus the configured `maxAge` in milliseconds. -/
structure SearchCache (T : Type) where
  cache : List (String × CachedData T)
  maxAge : Nat
deriving DecidableEq

/-- The constructor `new SearchCache(maxAgeMinutes)`: empty map, minutes
converted to milliseconds. -/
def SearchCache.make (T : Type) (maxAgeMinutes : Nat) : SearchCache T :=
  { cache := [], maxAge := maxAgeMinutes * 60 * 1000 }

/-- `SearchCache.get`: `null` when absent; when present, compute
`age = now - timestamp` and, if `age > maxAge`, delete the entry and return
`null` (lazy eviction); otherwise return the stored data. The possibly
updated map is returned alongside the result. -/
def SearchCache.get {T : Type} (c : SearchCache T) (now : Nat) (key : String) :
    Option T × SearchCache T :=
  match mapGet c.cache key with
  | none => (none, c)
  | some cached =>
    let age : Int := (now : Int) - (cached.timestamp : Int)
    if age > (c.maxAge : Int) then
      (none, { c with cache := mapDelete c.cache key })
    else
      (some cached.data, c)

/-- `SearchCache.set`: unconditionally store the value with the current
timestamp. -/
def SearchCache.set {T : Type} (c : SearchCache T) (now : Nat) (key : String) (data : T) :
    SearchCache T :=
  { c with cache := mapSet c.cache key { data := data, timestamp := now } }

/-- `SearchCache.clear`: drop every entry. -/
def SearchCache.clear {T : Type} (c : SearchCache T) : SearchCache T :=
  { c with cache := [] }

/-! ## Helpers (src/helpers: debounce.ts / cleanObject) -/

/-- A filter object before cleaning: ordered fields whose value is either a
real string or `none` (modelling JS `undefined` / `null`). -/
abbrev RawFilterObject := List (String × Option String)

/-- A cleaned `CharacterFilter`: the ordered sequence of fields that survived
`cleanObject`, each with a string value. -/
abbrev CharacterFilter := List (String × String)

/-- `cleanObject`: keep only the entries whose value is neither `undefined`
nor `null` nor the empty string, in their original order. -/
def cleanObject (obj : RawFilterObject) : CharacterFilter :=
  obj.filterMap (fun p =>
    match p.2 with
    | none => none
    | some v => if v = "" then none else some (p.1, v))

/-- `JSON.stringify` on a cleaned filter object: fields serialized in
insertion order. -/
def jsonStringify (f : CharacterFilter) : String :=
  "\x7b" ++ String.intercalate ","
    (f.map (fun p => "\"" ++ p.1 ++ "\":\"" ++ p.2 ++ "\"")) ++ "\x7d"

/-- The timers produced by `debounce(fn, d)` on a timed call trace: a call at
time `t` schedules an invocation at `t + d`; the next call cancels that timer
exactly when it arrives strictly before `t + d`. The result is the list of
`(firingTime, arguments)` invocations of the wrapped function. -/
def debounceInvocations {α : Type} (d : Nat) : List (Nat × α) → List (Nat × α)
  | [] => []
  | [(t, a)] => [(t + d, a)]
  | (t, a) :: (s, b) :: rest =>
    if s < t + d then debounceInvocations d ((s, b) :: rest)
    else (t + d, a) :: debounceInvocations d ((s, b) :: rest)

/-- What each caller of the debounced wrapper receives: the wrapper's return
type is `void`, so every call yields the unit value and no result of the
wrapped function is propagated. -/
def debounceCallResults {α : Type} (calls : List (Nat × α)) : List Unit :=
  calls.map (fun _ => ())

/-! ## Pagination/search controller (src/hooks/useCharacters.ts) -/

/-- `getCacheKey(page, filter)`: page-only key when the filter is `null` or
has no fields, otherwise the `JSON.stringify` serialization of the filter
plus the page. -/
def getCacheKey (page : Nat) (filter : Option CharacterFilter) : String :=
  match filter with
  | none => "characters:page:" ++ toString page
  | some f =>
    if f.length = 0 then "characters:page:" ++ toString page
    else "characters:" ++ jsonStringify f ++ ":page:" ++ toString page

/-- Outcome of the awaited `characterService.getCharacters` call inside
`loadData`: either a response, or a thrown failure (`some m` when the thrown
value is an `Error` with message `m`, `none` for a non-`Error` throw). -/
inductive FetchOutcome where
  | success (response : CharactersResponse)
  | failure (errMessage : Option String)
deriving DecidableEq

/-- The controller state of the `useCharacters` hook: React state plus the
`isInitialLoadRef` ref and the module-level `searchCache` singleton. -/
structure HookState where
  characters : List CharacterInterface
  currentPage : Nat
  totalPages : Nat
  loading : Bool
  isLoadingMore : Bool
  error : Option String
  activeFilter : Option CharacterFilter
  isInitialLoadRef : Bool
  cache : SearchCache (List CharacterInterface)
deriving DecidableEq

/-- The initial hook state: empty list, page 1, unknown total, loading,
no error, no filter, initial-load ref set, 30-minute cache. -/
def initialState : HookState :=
  { characters := []
    currentPage := 1
    totalPages := 0
    loading := true
    isLoadingMore := false
    error := none
    activeFilter := none
    isInitialLoadRef := true
    cache := SearchCache.make (List CharacterInterface) 30 }

/-- `loadData(page, filter)`, run to completion. The cache is consulted
first: on a hit, page 1 replaces the list and later pages append the cached
items, the loading flag is cleared when this was the initial load, and
nothing else changes. On a miss the network outcome `net` is consumed: on
success page 1 replaces the list while later pages append only the fetched
characters whose id is not already present, `currentPage` and `totalPages`
are updated, the raw fetched items are stored in the cache and the error is
cleared; on failure only the error message is recorded. The `finally` block
clears both loading flags and the initial-load ref. -/
def loadData (page : Nat) (filter : Option CharacterFilter) (now : Nat)
    (net : FetchOutcome) (s : HookState) : HookState :=
  let cacheKey := getCacheKey page filter
  let lookup := s.cache.get now cacheKey
  match lookup.1 with
  | some cached =>
    let chars := if page = 1 then cached else s.characters ++ cached
    if s.isInitialLoadRef then
      { s with characters := chars, cache := lookup.2,
               loading := false, isInitialLoadRef := false }
    else
      { s with characters := chars, cache := lookup.2 }
  | none =>
    let s1 : HookState :=
      if s.isInitialLoadRef then { s with loading := true, cache := lookup.2 }
      else { s with isLoadingMore := true, cache := lookup.2 }
    let s2 : HookState :=
      match net with
      | .success response =>
        let newCharacters := response.results
        let chars :=
          if page = 1 then newCharacters
          else
            let existingIds := s1.characters.map (fun c => c.id)
            s1.characters ++
              newCharacters.filter (fun c => decide (c.id ∉ existingIds))
        { s1 with characters := chars,
                  currentPage := page,
                  totalPages := response.info.pages,
                  cache := s1.cache.set now cacheKey newCharacters,
                  error := none }
      | .failure errMessage =>
        { s1 with error := some (match errMessage with
            | some m => m
            | none => "Failed to load characters") }
    { s2 with loading := false, isLoadingMore := false, isInitialLoadRef := false }

/-- `cleanAndApplyFilters(newFilter)`: clean the filter, treat an empty
result as `null`, store it as the active filter, clear the initial-load ref
and call `loadData(1, finalFilter)`. -/
def cleanAndApplyFilters (newFilter : RawFilterObject) (now : Nat)
    (net : FetchOutcome) (s : HookState) : HookState :=
  let cleanFilter := cleanObject newFilter
  let finalFilter := if cleanFilter.length > 0 then some cleanFilter else none
  loadData 1 finalFilter now net
    { s with activeFilter := finalFilter, isInitialLoadRef := false }

/-- `loadNextPage()`: no-op when there is no next page or a load-more is in
flight, otherwise `loadData(currentPage + 1, activeFilter)`. -/
def loadNextPage (now : Nat) (net : FetchOutcome) (s : HookState) : HookState :=
  let hasNextPage := s.currentPage < s.totalPages
  if ¬ hasNextPage ∨ s.isLoadingMore then s
  else loadData (s.currentPage + 1) s.activeFilter now net s

/-- One `load(page, filter)` call of a trace, with its wall-clock time and
the network outcome that the fetch would produce on a cache miss. -/
structure LoadCall where
  page : Nat
  filter : Option CharacterFilter
  now : Nat
  net : FetchOutcome
deriving DecidableEq

/-- Run a sequence of `loadData` calls from a starting state. -/
def runLoads : HookState → List LoadCall → HookState
  | s, [] => s
  | s, c :: rest => runLoads (loadData c.page c.filter c.now c.net s) rest

/-! ## Presentation selection controller (useCharactersPage) -/

/-- The `characterType` union type `"all" | "starred" | "others"`. -/
inductive CharacterType where
  | all
  | starred
  | others
deriving DecidableEq

/-- The `species` union type `"all" | "human" | "alien"`. -/
inductive SpeciesChoice where
  | all
  | human
  | alien
deriving DecidableEq

/-- The server-relevant fragment built by `handleApplyFilters`: the
`serverFilters` object, which carries a `species` field exactly when the
chosen species is not `"all"`. -/
def speciesFragment : SpeciesChoice → Option String
  | .all => none
  | .human => some "human"
  | .alien => some "alien"

/-- `JSON.stringify` of the `serverFilters` object (a record with at most the
`species` field). -/
def stringifyServerFilters : Option String → String
  | none => "\x7b\x7d"
  | some v => "\x7b\"species\":\"" ++ v ++ "\"\x7d"

/-- The local state of the `useCharactersPage` hook that
`handleApplyFilters` touches. -/
structure PageState where
  localFilter : CharacterType
  currentServerFilters : Option String
deriving DecidableEq

/-- `handleApplyFilters({characterType, species})`: always set the local
view filter; build the `serverFilters` fragment; compare its
`JSON.stringify` against the previously sent one and, only when they differ,
record it and forward it to `onFilterChange`. The second component is the
forwarded fragment (`none` when `onFilterChange` was not called). -/
def handleApplyFilters (s : PageState) (characterType : CharacterType)
    (species : SpeciesChoice) : PageState × Option (Option String) :=
  let s1 : PageState := { s with localFilter := characterType }
  let serverFilters := speciesFragment species
  let filtersChanged :=
    stringifyServerFilters serverFilters ≠ stringifyServerFilters s.currentServerFilters
  if filtersChanged then
    ({ s1 with currentServerFilters := serverFilters }, some serverFilters)
  else
    (s1, none)

/-! ## Transport layer (src/services/graphql/client.ts and the character
service) -/

/-- One `errors` array entry of a GraphQL response body. -/
structure GraphQLErrorEntry where
  message : String
deriving DecidableEq

/-- `GraphQLResponse<T>`: optional `data` payload and optional `errors`
array. -/
structure GraphQLResponseBody (T : Type) where
  data : Option T
  errors : Option (List GraphQLErrorEntry)
deriving DecidableEq

/-- Outcome of the `fetch` + `response.json()` pair inside
`GraphQLClient.request`: either a thrown network/parse failure with its
message, or an HTTP response with its `ok` flag, `statusText` and parsed
body. -/
inductive HttpOutcome (T : Type) where
  | netFailure (message : String)
  | httpResponse (ok : Bool) (statusText : String) (body : GraphQLResponseBody T)
deriving DecidableEq

/-- `GraphQLClient.request`: rethrow a network failure unchanged; throw on a
non-ok HTTP status; throw when the body reports a non-empty `errors` array;
throw when the body has no `data`; otherwise return the payload. -/
def GraphQLClient.request {T : Type} (o : HttpOutcome T) : Except String T :=
  match o with
  | .netFailure m => .error m
  | .httpResponse ok statusText body =>
    if ok = false then
      .error ("GraphQL request failed: " ++ statusText)
    else
      let errs := body.errors.getD []
      if errs.length > 0 then
        .error ("GraphQL errors: " ++
          String.intercalate ", " (errs.map (fun e => e.message)))
      else
        match body.data with
        | none => .error "GraphQL response has no data"
        | some d => .ok d

/-- The `data` shape of the paginated listing query: `{ characters }`. -/
structure GetCharactersData where
  characters : CharactersResponse
deriving DecidableEq

/-- `CharacterService.getCharacters`: run the generic request and project the
`characters` field; a failure is logged and rethrown unchanged. -/
def CharacterService.getCharacters (o : HttpOutcome GetCharactersData) :
    Except String CharactersResponse :=
  match GraphQLClient.request o with
  | .ok d => .ok d.characters
  | .error e => .error e

/-- Modelled from the spec (section 4.3 / 7): the success condition the spec
ascribes to the Data Access Service — the transport call succeeded with an
ok HTTP status, the body reports no (non-empty) errors array, and the body
carries a data payload. Used to compare the implementation against the
spec's words. -/
def specFetchSucceeds {T : Type} (o : HttpOutcome T) : Bool :=
  match o with
  | .netFailure _ => false
  | .httpResponse ok _ body =>
    ok && (body.errors.getD []).isEmpty && body.data.isSome

/-- Whether an `Except` result is a success. -/
def exceptIsOk {ε α : Type} : Except ε α → Bool
  | .ok _ => true
  | .error _ => false

/-! ## Support definitions for the verification -/

/-- The identifiers of a character list, in order. -/
def characterIds (l : List CharacterInterface) : List Nat :=
  l.map (fun c => c.id)

/-- A concrete character with the given id and empty descriptive fields. -/
def mkChar (n : Nat) : CharacterInterface :=
  { id := n, name := "", status := "", species := "", type := "", gender := ""
    origin := { name := "" }, location := { name := "" }, image := ""
    episode := [], created := "" }

/-- A concrete page result with the given total page count and items. -/
def mkResp (pages : Nat) (l : List CharacterInterface) : CharactersResponse :=
  { info := { count := 0, pages := pages, next := none, prev := none }
    results := l }

/-- The `finalFilter` computed by `cleanAndApplyFilters`: the cleaned filter,
or `null` when nothing survived the cleaning. -/
def finalFilterOf (f : RawFilterObject) : Option CharacterFilter :=
  if (cleanObject f).length > 0 then some (cleanObject f) else none

/-- Whether the page result a call would fetch carries pairwise-distinct
identifiers (vacuously true for a failing fetch). -/
def callNetNodup (call : LoadCall) : Bool :=
  match call.net with
  | .success response => decide (characterIds response.results).Nodup
  | .failure _ => true

/-- Whether, along a run of the trace, every `load` call that appends
(`page ≠ 1`) is served by the network, i.e. misses the cache at the moment
it executes. -/
def appendsServedByNetwork : HookState → List LoadCall → Bool
  | _, [] => true
  | s, c :: rest =>
    decide (c.page = 1 ∨ (s.cache.get c.now (getCacheKey c.page c.filter)).1 = none) &&
      appendsServedByNetwork (loadData c.page c.filter c.now c.net s) rest

/-- Every value stored in the cache carries pairwise-distinct character
identifiers. -/
def cacheValuesIdsNodup (c : SearchCache (List CharacterInterface)) : Prop :=
  ∀ p ∈ c.cache, (characterIds p.2.data).Nodup

/-- Trace refuting the dedup claim: page 2 is fetched from the network and
cached, then requested again; the cache hit appends the cached items without
deduplication. -/
def claim1Trace : List LoadCall :=
  [ { page := 2, filter := none, now := 0, net := .success (mkResp 5 [mkChar 7]) }
  , { page := 2, filter := none, now := 0, net := .failure none } ]

/-- Trace preparing the filter-reset counterexample: page 1 then page 2 are
fetched from the network, so page 1 is cached and `currentPage` ends at 2. -/
def claim2Trace : List LoadCall :=
  [ { page := 1, filter := none, now := 0, net := .success (mkResp 5 [mkChar 1]) }
  , { page := 2, filter := none, now := 0, net := .success (mkResp 5 [mkChar 2]) } ]

/-- A controller state with a page-1 entry in the cache, a stale error and a
current page other than 1; used to instantiate the cache-hit theorems. -/
def hitState : HookState :=
  { characters := [mkChar 1]
    currentPage := 7
    totalPages := 9
    loading := false
    isLoadingMore := false
    error := some "boom"
    activeFilter := none
    isInitialLoadRef := false
    cache := { cache := [ ("characters:page:1", { data := [mkChar 3], timestamp := 0 })
                        , ("characters:page:2", { data := [mkChar 4], timestamp := 0 }) ]
               maxAge := 1800000 } }

/-! ## Association-map lemmas -/

theorem mapGet_mapDelete_self {β : Type} (m : List (String × β)) (k : String) :
    mapGet (mapDelete m k) k = none := by
  have h : (mapDelete m k).find? (fun p => p.1 == k) = none := by
    rw [List.find?_eq_none]
    intro x hx
    have hq := (List.mem_filter.mp hx).2
    simp only [bne_iff_ne, ne_eq, decide_eq_true_eq] at hq
    simp [hq]
  simp [mapGet, h]

theorem mapGet_mapSet_self {β : Type} (m : List (String × β)) (k : String) (v : β) :
    mapGet (mapSet m k v) k = some v := by
  have h : (mapDelete m k).find? (fun p => p.1 == k) = none := by
    rw [List.find?_eq_none]
    intro x hx
    have hq := (List.mem_filter.mp hx).2
    simp only [bne_iff_ne, ne_eq, decide_eq_true_eq] at hq
    simp [hq]
  simp [mapGet, mapSet, List.find?_append, h, List.find?]

/-- A cache hit: the key maps to an entry whose age does not exceed
`maxAge`, so `get` returns the stored data and leaves the cache unchanged. -/
theorem SearchCache.get_hit {T : Type} (c : SearchCache T) (now : Nat) (key : String)
    (cd : CachedData T) (h : mapGet c.cache key = some cd)
    (hfresh : (now : Int) - (cd.timestamp : Int) ≤ (c.maxAge : Int)) :
    c.get now key = (some cd.data, c) := by
  simp only [SearchCache.get, h]
  split
  · omega
  · rfl

/-- An expired entry: `get` returns absent and deletes the entry. -/
theorem SearchCache.get_expired {T : Type} (c : SearchCache T) (now : Nat) (key : String)
    (cd : CachedData T) (h : mapGet c.cache key = some cd)
    (hold : (now : Int) - (cd.timestamp : Int) > (c.maxAge : Int)) :
    c.get now key = (none, { c with cache := mapDelete c.cache key }) := by
  simp only [SearchCache.get, h]
  split
  · rfl
  · omega

/-- A missing key: `get` returns absent and leaves the cache unchanged. -/
theorem SearchCache.get_missing {T : Type} (c : SearchCache T) (now : Nat) (key : String)
    (h : mapGet c.cache key = none) :
    c.get now key = (none, c) := by
  simp only [SearchCache.get, h]

/-- C4: `set(k, v)` followed immediately by `get(k)` returns `v`; once more
than `maxAge` has elapsed since the `set`, `get(k)` returns absent and
deletes the entry, and every subsequent `get(k)` on the resulting cache also
returns absent. -/
theorem claim4_cache_roundTrip {T : Type} (c : SearchCache T) (k : String)
    (v : T) (t now : Nat)
    (hexp : (now : Int) - (t : Int) > (c.maxAge : Int)) :
    (((c.set t k v).get t k).1 = some v) ∧
    (((c.set t k v).get now k).1 = none) ∧
    (∀ t2 : Nat, ((((c.set t k v).get now k).2).get t2 k).1 = none) := by
  have hget : mapGet (c.set t k v).cache k = some { data := v, timestamp := t } :=
    mapGet_mapSet_self c.cache k _
  have hmax : (c.set t k v).maxAge = c.maxAge := rfl
  have hexpired := SearchCache.get_expired (c.set t k v) now k _ hget (show (now : Int) - (t : Int) > (c.maxAge : Int) from hexp)
  refine ⟨?_, ?_, ?_⟩
  · rw [SearchCache.get_hit (c.set t k v) t k _ hget (show (t : Int) - (t : Int) ≤ (c.maxAge : Int) by omega)]
  · rw [hexpired]
  · intro t2
    rw [hexpired]
    have hdel : mapGet (mapDelete (c.set t k v).cache k) k = none :=
      mapGet_mapDelete_self _ k
    rw [SearchCache.get_missing _ t2 k hdel]

/-- A closed instance of the cache round-trip theorem: a 5ms-TTL cache holds
the value at the write instant and loses it permanently once read 6ms
later. -/
theorem claim4_cache_roundTrip_witness :
    ((((SearchCache.mk [] 5 : SearchCache Nat).set 0 "k" 42).get 0 "k").1 = some 42) ∧
    ((((SearchCache.mk [] 5 : SearchCache Nat).set 0 "k" 42).get 6 "k").1 = none) ∧
    (((((SearchCache.mk [] 5 : SearchCache Nat).set 0 "k" 42).get 6 "k").2.get 3 "k").1 = none) := by
  have h := claim4_cache_roundTrip (SearchCache.mk [] 5 : SearchCache Nat)
    "k" 42 0 6 (by decide)
  exact ⟨h.1, h.2.1, h.2.2 3⟩

/-- C10: the TTL boundary is exclusive — a `get` at exactly `maxAge` after
the `set` still returns the stored value (as does any earlier `get`), and
only a strictly greater age makes `get` return absent and evict the
entry. -/
theorem claim10_ttl_boundary {T : Type} (c : SearchCache T) (k : String)
    (v : T) (t : Nat) :
    (((c.set t k v).get (t + c.maxAge) k).1 = some v) ∧
    (∀ now : Nat, (now : Int) - (t : Int) ≤ (c.maxAge : Int) →
      ((c.set t k v).get now k).1 = some v) ∧
    (∀ now : Nat, (now : Int) - (t : Int) > (c.maxAge : Int) →
      ((c.set t k v).get now k).1 = none ∧
      mapGet (((c.set t k v).get now k).2).cache k = none) := by
  have hget : mapGet (c.set t k v).cache k = some { data := v, timestamp := t } :=
    mapGet_mapSet_self c.cache k _
  have hmax : (c.set t k v).maxAge = c.maxAge := rfl
  refine ⟨?_, ?_, ?_⟩
  · rw [SearchCache.get_hit (c.set t k v) (t + c.maxAge) k _ hget (show ((t + c.maxAge : Nat) : Int) - (t : Int) ≤ (c.maxAge : Int) by push_cast; omega)]
  · intro now hle
    rw [SearchCache.get_hit (c.set t k v) now k _ hget (show (now : Int) - (t : Int) ≤ (c.maxAge : Int) from hle)]
  · intro now hgt
    have hexpired := SearchCache.get_expired (c.set t k v) now k _ hget (show (now : Int) - (t : Int) > (c.maxAge : Int) from hgt)
    have hdel : mapGet (mapDelete (c.set t k v).cache k) k = none :=
      mapGet_mapDelete_self _ k
    rw [hexpired]
    exact ⟨rfl, hdel⟩

/-- A closed instance of the TTL boundary theorem: with `maxAge = 5` and a
write at time 0, a read at time 5 still returns the value and a read at
time 6 evicts it. -/
theorem claim10_ttl_boundary_witness :
    ((((SearchCache.mk [] 5 : SearchCache Nat).set 0 "k" 7).get 5 "k").1 = some 7) ∧
    ((((SearchCache.mk [] 5 : SearchCache Nat).set 0 "k" 7).get 6 "k").1 = none) := by
  have h := claim10_ttl_boundary (SearchCache.mk [] 5 : SearchCache Nat) "k" 7 0
  exact ⟨h.2.1 5 (by decide), (h.2.2 6 (by decide)).1⟩

/-- C3, counterexample: two filters that are equal as mappings from field
names to values (one is a permutation of the other) produce different cache
keys, because `JSON.stringify` serializes fields in insertion order. -/
theorem claim3_counterexample :
    ([("name", "a"), ("species", "b")] : CharacterFilter).Perm
      [("species", "b"), ("name", "a")] ∧
    getCacheKey 1 (some [("name", "a"), ("species", "b")]) ≠
      getCacheKey 1 (some [("species", "b"), ("name", "a")]) := by
  constructor
  · decide
  · decide

/-- C3 (amended): the cache key is a deterministic function of the page and
the filter's ordered field sequence — when the filter is absent or has no
fields the key encodes only the page number, and otherwise it appends the
insertion-ordered `JSON.stringify` serialization of the filter; filters that
are equal as mappings but list their fields in a different order may yield
different keys. -/
theorem claim3_cacheKey_pageOnly (page : Nat) :
    getCacheKey page none = "characters:page:" ++ toString page ∧
    getCacheKey page (some []) = getCacheKey page none ∧
    ∀ f : CharacterFilter, f.length > 0 →
      getCacheKey page (some f) =
        "characters:" ++ jsonStringify f ++ ":page:" ++ toString page := by
  refine ⟨rfl, rfl, ?_⟩
  intro f hf
  simp [getCacheKey, Nat.pos_iff_ne_zero.mp hf]

/-- A closed instance of the amended cache-key theorem at page 3 and a
one-field filter. -/
theorem claim3_cacheKey_pageOnly_witness :
    getCacheKey 3 none = "characters:page:3" ∧
    getCacheKey 3 (some [("name", "rick")]) =
      "characters:" ++ jsonStringify [("name", "rick")] ++ ":page:3" := by
  have h := claim3_cacheKey_pageOnly 3
  exact ⟨h.1, h.2.2 [("name", "rick")] (by decide)⟩

/-- C5: when the network fetch of a `load` fails (the cache having missed),
the controller records the thrown failure's message — or the generic
fallback text when the thrown value is not an `Error` — and leaves the
accumulated character list exactly as it was. -/
theorem claim5_failure_preserves_list (page : Nat) (filter : Option CharacterFilter)
    (now : Nat) (errMessage : Option String) (s : HookState)
    (hmiss : (s.cache.get now (getCacheKey page filter)).1 = none) :
    (loadData page filter now (.failure errMessage) s).characters = s.characters ∧
    (loadData page filter now (.failure errMessage) s).error =
      some (match errMessage with
        | some m => m
        | none => "Failed to load characters") := by
  simp only [loadData, hmiss]
  split <;> simp

/-- A closed instance of the failure theorem: a failing initial load on the
empty state keeps the empty list and stores the thrown message; a non-Error
throw stores the fallback text. -/
theorem claim5_failure_preserves_list_witness :
    ((loadData 1 none 0 (.failure (some "boom")) initialState).characters = [] ∧
      (loadData 1 none 0 (.failure (some "boom")) initialState).error = some "boom") ∧
    (loadData 1 none 0 (.failure none) initialState).error =
      some "Failed to load characters" := by
  refine ⟨claim5_failure_preserves_list 1 none 0 (some "boom") initialState (by decide), ?_⟩
  exact (claim5_failure_preserves_list 1 none 0 none initialState (by decide)).2

/-- C9: a load served from the TTL cache never modifies the stored error —
the error field is left untouched (stale errors survive a cache hit) while
the accumulated list is still updated (replaced on page 1, appended to
otherwise). -/
theorem claim9_cacheHit_error_frame (page : Nat) (filter : Option CharacterFilter)
    (now : Nat) (net : FetchOutcome) (s : HookState) (v : List CharacterInterface)
    (hhit : (s.cache.get now (getCacheKey page filter)).1 = some v) :
    (loadData page filter now net s).error = s.error ∧
    (loadData page filter now net s).characters =
      (if page = 1 then v else s.characters ++ v) := by
  simp only [loadData, hhit]
  split <;> simp

/-- A closed instance of the cache-hit frame theorem: on a state whose last
load failed with "boom", a cache-hit load of page 2 keeps the stale error
and appends the cached items. -/
theorem claim9_cacheHit_error_frame_witness :
    (loadData 2 none 0 (.failure (some "other")) hitState).error = some "boom" ∧
    (loadData 2 none 0 (.failure (some "other")) hitState).characters =
      [mkChar 1, mkChar 4] := by
  have h := claim9_cacheHit_error_frame 2 none 0 (.failure (some "other")) hitState
    [mkChar 4] (by decide)
  simpa [hitState, mkChar] using h

/-- C2, counterexample: after loading pages 1 and 2 from the network
(`currentPage = 2`, page 1 cached), applying an empty filter issues
`load(1, null)`, which is served from the cache — the accumulated list is
replaced by the cached page-1 items, but `currentPage` stays 2 instead of
being reset to 1 as the claim states. -/
theorem claim2_counterexample :
    (cleanAndApplyFilters [] 0 (.failure none) (runLoads initialState claim2Trace)).currentPage
        ≠ 1 ∧
    (cleanAndApplyFilters [] 0 (.failure none) (runLoads initialState claim2Trace)).currentPage
        = 2 ∧
    (cleanAndApplyFilters [] 0 (.failure none) (runLoads initialState claim2Trace)).characters
        = [mkChar 1] := by
  refine ⟨?_, ?_, ?_⟩ <;> decide

/-- C2 (amended): `applyFilter` always calls `load(1, cleanedFilter)` and
replaces (never appends to) the accumulated list — with the cached page-1
items on a cache hit, with the fetched items on a network success, and
leaving the list untouched on a network failure; `currentPage` is set to 1
only on a network success, while a cache-hit page-1 load leaves
`currentPage` at its previous value. -/
theorem claim2_filter_reset (f : RawFilterObject) (now : Nat) (net : FetchOutcome)
    (s : HookState) :
    (∀ v : List CharacterInterface,
      (s.cache.get now (getCacheKey 1 (finalFilterOf f))).1 = some v →
        (cleanAndApplyFilters f now net s).characters = v ∧
        (cleanAndApplyFilters f now net s).currentPage = s.currentPage) ∧
    ((s.cache.get now (getCacheKey 1 (finalFilterOf f))).1 = none →
      (∀ response : CharactersResponse, net = .success response →
        (cleanAndApplyFilters f now net s).characters = response.results ∧
        (cleanAndApplyFilters f now net s).currentPage = 1) ∧
      (∀ e : Option String, net = .failure e →
        (cleanAndApplyFilters f now net s).characters = s.characters)) := by
  have heq : cleanAndApplyFilters f now net s =
      loadData 1 (finalFilterOf f) now net
        { s with activeFilter := finalFilterOf f, isInitialLoadRef := false } := rfl
  constructor
  · intro v hhit
    rw [heq]
    simp only [loadData]
    simp only [show (({ s with activeFilter := finalFilterOf f, isInitialLoadRef := false }
      : HookState).cache.get now (getCacheKey 1 (finalFilterOf f))).1 = some v from hhit]
    simp
  · intro hmiss
    constructor
    · intro response hnet
      subst hnet
      rw [heq]
      simp only [loadData]
      simp only [show (({ s with activeFilter := finalFilterOf f, isInitialLoadRef := false }
        : HookState).cache.get now (getCacheKey 1 (finalFilterOf f))).1 = none from hmiss]
      simp
    · intro e hnet
      subst hnet
      rw [heq]
      simp only [loadData]
      simp only [show (({ s with activeFilter := finalFilterOf f, isInitialLoadRef := false }
        : HookState).cache.get now (getCacheKey 1 (finalFilterOf f))).1 = none from hmiss]
      simp

/-- A closed instance of the amended filter-reset theorem: on `hitState`
(whose current page is 7 and whose cache holds page 1), applying the empty
filter replaces the list with the cached page-1 items and keeps
`currentPage = 7`, while applying a species filter (a cache miss) that
succeeds over the network replaces the list with the fetched items and does
reset `currentPage` to 1. -/
theorem claim2_filter_reset_witness :
    ((cleanAndApplyFilters [] 0 (.failure none) hitState).characters = [mkChar 3] ∧
      (cleanAndApplyFilters [] 0 (.failure none) hitState).currentPage = 7) ∧
    ((cleanAndApplyFilters [("species", some "alien")] 0
        (.success (mkResp 3 [mkChar 9])) hitState).characters = [mkChar 9] ∧
      (cleanAndApplyFilters [("species", some "alien")] 0
        (.success (mkResp 3 [mkChar 9])) hitState).currentPage = 1) := by
  constructor
  · have h := (claim2_filter_reset [] 0 (.failure none) hitState).1 [mkChar 3] (by decide)
    simpa [hitState] using h
  · have h := ((claim2_filter_reset [("species", some "alien")] 0
        (.success (mkResp 3 [mkChar 9])) hitState).2 (by decide)).1
      (mkResp 3 [mkChar 9]) rfl
    simpa [mkResp] using h

/-- C7: two consecutive `handleApplyFilters` calls whose species fragments
are equal by value — the second call still sets the local view filter, but
does not forward any filter change, so the data access service is triggered
at most once across the two calls. -/
theorem claim7_no_redundant_forward (s : PageState) (ct1 ct2 : CharacterType)
    (sp1 sp2 : SpeciesChoice)
    (h : speciesFragment sp2 = speciesFragment sp1) :
    (handleApplyFilters (handleApplyFilters s ct1 sp1).1 ct2 sp2).1.localFilter = ct2 ∧
    (handleApplyFilters (handleApplyFilters s ct1 sp1).1 ct2 sp2).2 = none := by
  by_cases h1 :
      stringifyServerFilters (speciesFragment sp1) =
        stringifyServerFilters s.currentServerFilters
  · simp [handleApplyFilters, h, h1]
  · simp [handleApplyFilters, h, h1]

/-- A closed instance of the no-redundant-forward theorem: re-confirming the
`human` species forwards nothing the second time while the local filter is
still updated. -/
theorem claim7_no_redundant_forward_witness :
    (handleApplyFilters
        (handleApplyFilters { localFilter := .all, currentServerFilters := none }
          .starred .human).1
        .others .human).1.localFilter = .others ∧
    (handleApplyFilters
        (handleApplyFilters { localFilter := .all, currentServerFilters := none }
          .starred .human).1
        .others .human).2 = none :=
  claim7_no_redundant_forward { localFilter := .all, currentServerFilters := none }
    .starred .others .human .human rfl

/-- C8: the character fetch returns a page result exactly when the transport
call produced an ok HTTP response whose body reports no non-empty errors
array and carries a data payload; in every other case it fails with an error
message. -/
theorem claim8_transport_success_iff (o : HttpOutcome GetCharactersData) :
    exceptIsOk (CharacterService.getCharacters o) = specFetchSucceeds o := by
  cases o with
  | netFailure m => rfl
  | httpResponse ok st body =>
    rcases body with ⟨data, errors⟩
    cases ok
    · rfl
    · cases errors with
      | none => cases data <;> rfl
      | some errs =>
        cases errs with
        | nil => cases data <;> rfl
        | cons e es =>
          cases data <;>
            simp [CharacterService.getCharacters, GraphQLClient.request,
              exceptIsOk, specFetchSucceeds]

/-- The debounced wrapper returns unit to all of its callers. -/
theorem debounceCallResults_eq {α : Type} (calls : List (Nat × α)) :
    debounceCallResults calls = List.replicate calls.length () := by
  induction calls with
  | nil => rfl
  | cons x xs ih =>
    rw [List.length_cons, List.replicate_succ, ← ih]
    rfl

/-- When every pair of consecutive calls is separated by less than the
delay, only the last call's timer survives. -/
theorem debounceInvocations_rapid {α : Type} (d : Nat) :
    ∀ (calls : List (Nat × α)) (hne : calls ≠ []),
      List.Chain' (fun p q => q.1 < p.1 + d) calls →
      debounceInvocations d calls =
        [((calls.getLast hne).1 + d, (calls.getLast hne).2)]
  | [], hne, _ => absurd rfl hne
  | [(t, a)], _, _ => by simp [debounceInvocations]
  | (t, a) :: (u, b) :: rest, _, hch => by
    have h1 : u < t + d := (List.chain'_cons.mp hch).1
    have h2 := (List.chain'_cons.mp hch).2
    have ih := debounceInvocations_rapid d ((u, b) :: rest) (by simp) h2
    simp only [debounceInvocations, if_pos h1, ih]
    simp [List.getLast_cons]

/-- C6: for any delay and any nonempty sequence of calls to the debounced
wrapper in which each consecutive pair of calls is separated by strictly
less than the delay, the wrapped function is invoked exactly once, at the
last call's time plus the delay, with the arguments of that last call; and
every caller of the wrapper receives only the unit value, never a result of
the wrapped function. -/
theorem claim6_debounce_collapses {α : Type} (d : Nat) (calls : List (Nat × α))
    (hne : calls ≠ [])
    (hrapid : List.Chain' (fun p q => q.1 < p.1 + d) calls) :
    debounceInvocations d calls =
      [((calls.getLast hne).1 + d, (calls.getLast hne).2)] ∧
    debounceCallResults calls = List.replicate calls.length () :=
  ⟨debounceInvocations_rapid d calls hne hrapid, debounceCallResults_eq calls⟩

/-- A closed instance of the debounce theorem: three keystrokes at 0ms,
100ms and 200ms under a 300ms delay produce exactly one invocation, at
500ms, with the last keystroke's text. -/
theorem claim6_debounce_collapses_witness :
    debounceInvocations 300 [(0, "r"), (100, "ri"), (200, "ric")] = [(500, "ric")] ∧
    debounceCallResults [(0, "r"), (100, "ri"), (200, "ric")] = [(), (), ()] := by
  have h := claim6_debounce_collapses 300 [(0, "r"), (100, "ri"), (200, "ric")]
    (by decide) (by norm_num [List.chain'_cons])
  simpa using h

/-- C1, counterexample: load page 2 from the network (caching it), then load
page 2 again — the second call is a cache hit and appends the cached items
without deduplication, so the accumulated list holds the identifier 7
twice. -/
theorem claim1_counterexample :
    characterIds (runLoads initialState claim1Trace).characters = [7, 7] ∧
    ¬ (characterIds (runLoads initialState claim1Trace).characters).Nodup := by
  constructor
  · decide
  · decide

/-- A cache lookup that returns a value found the key in the map, the value
is the stored data, and the cache is left unchanged. -/
theorem get_fst_some_inv {T : Type} (c : SearchCache T) (now : Nat) (k : String)
    (v : T) (h : (c.get now k).1 = some v) :
    (∃ cd, mapGet c.cache k = some cd ∧ cd.data = v) ∧ (c.get now k).2 = c := by
  cases hm : mapGet c.cache k with
  | none =>
    rw [SearchCache.get_missing c now k hm] at h
    exact absurd h (by simp)
  | some cd =>
    by_cases hage : (now : Int) - (cd.timestamp : Int) ≤ (c.maxAge : Int)
    · have hdata : cd.data = v := by
        rw [SearchCache.get_hit c now k cd hm hage] at h
        simpa using h
      constructor
      · exact ⟨cd, hm.symm.trans hm, hdata⟩
      · rw [SearchCache.get_hit c now k cd hm hage]
    · rw [SearchCache.get_expired c now k cd hm (by omega)] at h
      exact absurd h (by simp)

/-- Any entry of the cache returned by `get` was already an entry of the
cache before the lookup. -/
theorem get_snd_mem {T : Type} (c : SearchCache T) (now : Nat) (k : String)
    (p : String × CachedData T) (hp : p ∈ (c.get now k).2.cache) : p ∈ c.cache := by
  cases hm : mapGet c.cache k with
  | none =>
    rw [SearchCache.get_missing c now k hm] at hp
    exact hp
  | some cd =>
    by_cases hage : (now : Int) - (cd.timestamp : Int) ≤ (c.maxAge : Int)
    · rw [SearchCache.get_hit c now k cd hm hage] at hp
      exact hp
    · rw [SearchCache.get_expired c now k cd hm (by omega)] at hp
      simp only [mapDelete] at hp
      exact (List.mem_filter.mp hp).1

/-- A value delivered by `mapGet` is the value of some entry of the map. -/
theorem mapGet_mem {β : Type} (m : List (String × β)) (k : String) (v : β)
    (h : mapGet m k = some v) : ∃ p ∈ m, p.2 = v := by
  cases hf : m.find? (fun p => p.1 == k) with
  | none => simp [mapGet, hf] at h
  | some p =>
    have hv : p.2 = v := by simpa [mapGet, hf] using h
    exact ⟨p, List.mem_of_find?_eq_some hf, hv⟩

/-- Every entry of `mapSet m k v` is an entry of `m` or the new entry. -/
theorem mapSet_mem {β : Type} (m : List (String × β)) (k : String) (v : β)
    (p : String × β) (hp : p ∈ mapSet m k v) : p ∈ m ∨ p = (k, v) := by
  simp only [mapSet, mapDelete, List.mem_append, List.mem_filter,
    List.mem_singleton] at hp
  rcases hp with ⟨h1, _⟩ | h2
  · exact Or.inl h1
  · exact Or.inr h2

/-- The cache-hit equation of `loadData`. -/
theorem loadData_hit_eq (page : Nat) (filter : Option CharacterFilter) (now : Nat)
    (net : FetchOutcome) (s : HookState) (v : List CharacterInterface)
    (hl : (s.cache.get now (getCacheKey page filter)).1 = some v) :
    loadData page filter now net s =
      (if s.isInitialLoadRef then
        { s with characters := if page = 1 then v else s.characters ++ v
                 cache := (s.cache.get now (getCacheKey page filter)).2
                 loading := false, isInitialLoadRef := false }
      else
        { s with characters := if page = 1 then v else s.characters ++ v
                 cache := (s.cache.get now (getCacheKey page filter)).2 }) := by
  simp only [loadData, hl]

/-- The cache-miss, fetch-success equation of `loadData`. -/
theorem loadData_miss_success_eq (page : Nat) (filter : Option CharacterFilter)
    (now : Nat) (response : CharactersResponse) (s : HookState)
    (hl : (s.cache.get now (getCacheKey page filter)).1 = none) :
    loadData page filter now (.success response) s =
      { s with characters :=
                 if page = 1 then response.results
                 else s.characters ++ response.results.filter
                   (fun c => decide (c.id ∉ s.characters.map (fun c => c.id)))
               currentPage := page
               totalPages := response.info.pages
               cache := ((s.cache.get now (getCacheKey page filter)).2).set now
                 (getCacheKey page filter) response.results
               error := none
               loading := false, isLoadingMore := false, isInitialLoadRef := false } := by
  simp only [loadData, hl]
  split <;> split <;> rfl

/-- The cache-miss, fetch-failure equation of `loadData`. -/
theorem loadData_miss_failure_eq (page : Nat) (filter : Option CharacterFilter)
    (now : Nat) (errMessage : Option String) (s : HookState)
    (hl : (s.cache.get now (getCacheKey page filter)).1 = none) :
    loadData page filter now (.failure errMessage) s =
      { s with error := some (match errMessage with
                 | some m => m
                 | none => "Failed to load characters")
               cache := (s.cache.get now (getCacheKey page filter)).2
               loading := false, isLoadingMore := false, isInitialLoadRef := false } := by
  simp only [loadData, hl]
  split <;> rfl

/-- One `loadData` call preserves distinctness of the accumulated
identifiers and of every cached page, provided the fetched page (if any) has
distinct identifiers and the call either targets page 1 or misses the
cache. -/
theorem loadData_preserves_ids (page : Nat) (filter : Option CharacterFilter)
    (now : Nat) (net : FetchOutcome) (s : HookState)
    (hchars : (characterIds s.characters).Nodup)
    (hcache : cacheValuesIdsNodup s.cache)
    (hnet : callNetNodup { page := page, filter := filter, now := now, net := net } = true)
    (hsrc : page = 1 ∨ (s.cache.get now (getCacheKey page filter)).1 = none) :
    (characterIds (loadData page filter now net s).characters).Nodup ∧
    cacheValuesIdsNodup (loadData page filter now net s).cache := by
  cases hl : (s.cache.get now (getCacheKey page filter)).1 with
  | some v =>
    have hpage : page = 1 := by
      rcases hsrc with h | h
      · exact h
      · rw [h] at hl
        exact Option.noConfusion hl
    obtain ⟨⟨cd, hm, hcd⟩, hsnd⟩ :=
      get_fst_some_inv s.cache now (getCacheKey page filter) v hl
    have hv : (characterIds v).Nodup := by
      obtain ⟨p, hpmem, hp2⟩ := mapGet_mem s.cache.cache (getCacheKey page filter) cd hm
      have hnp := hcache p hpmem
      rw [hp2, hcd] at hnp
      exact hnp
    rw [loadData_hit_eq page filter now net s v hl]
    split
    · exact ⟨by simpa [hpage] using hv, by simpa [hsnd] using hcache⟩
    · exact ⟨by simpa [hpage] using hv, by simpa [hsnd] using hcache⟩
  | none =>
    cases net with
    | failure e =>
      rw [loadData_miss_failure_eq page filter now e s hl]
      refine ⟨by simpa using hchars, ?_⟩
      intro p hp
      exact hcache p (get_snd_mem s.cache now _ p (by simpa using hp))
    | success response =>
      have hresp : (characterIds response.results).Nodup := by
        simpa [callNetNodup] using hnet
      rw [loadData_miss_success_eq page filter now response s hl]
      constructor
      · by_cases hpage : page = 1
        · simpa [hpage] using hresp
        · simp only [if_neg hpage]
          simp only [characterIds, List.map_append] at hchars ⊢
          rw [List.nodup_append]
          refine ⟨hchars, ?_, ?_⟩
          · have hsub : (response.results.filter
                (fun c => decide (c.id ∉ s.characters.map (fun c => c.id)))).Sublist
                response.results := List.filter_sublist _
            exact hresp.sublist (hsub.map _)
          · intro x hx1 hx2
            obtain ⟨c, hcmem, rfl⟩ := List.mem_map.mp hx2
            have hpred := (List.mem_filter.mp hcmem).2
            rw [decide_eq_true_eq] at hpred
            exact hpred hx1
      · intro p hp
        have hp' : p ∈ mapSet (s.cache.get now (getCacheKey page filter)).2.cache
            (getCacheKey page filter)
            { data := response.results, timestamp := now } := by
          simpa [SearchCache.set] using hp
        rcases mapSet_mem _ _ _ p hp' with h | h
        · exact hcache p (get_snd_mem s.cache now _ p h)
        · rw [h]
          simpa [characterIds] using hresp

/-- Running a trace of `loadData` calls preserves both distinctness
invariants, provided every fetched page has distinct identifiers and every
appending call misses the cache. -/
theorem runLoads_preserves_ids :
    ∀ (trace : List LoadCall) (s : HookState),
      (characterIds s.characters).Nodup →
      cacheValuesIdsNodup s.cache →
      (∀ c ∈ trace, callNetNodup c = true) →
      appendsServedByNetwork s trace = true →
      (characterIds (runLoads s trace).characters).Nodup ∧
      cacheValuesIdsNodup (runLoads s trace).cache
  | [], _, h1, h2, _, _ => ⟨h1, h2⟩
  | c :: rest, s, h1, h2, hnet, hsrc => by
    simp only [appendsServedByNetwork, Bool.and_eq_true, decide_eq_true_eq] at hsrc
    obtain ⟨hc, hrest⟩ := hsrc
    have hstep := loadData_preserves_ids c.page c.filter c.now c.net s h1 h2
      (hnet c (List.mem_cons_self c rest)) hc
    exact runLoads_preserves_ids rest (loadData c.page c.filter c.now c.net s)
      hstep.1 hstep.2 (fun c' h' => hnet c' (List.mem_cons_of_mem c h')) hrest

/-- Running a trace is running its two halves in sequence. -/
theorem runLoads_append (s : HookState) (u w : List LoadCall) :
    runLoads s (u ++ w) = runLoads (runLoads s u) w := by
  induction u generalizing s with
  | nil => rfl
  | cons c rest ih =>
    simp only [List.cons_append, runLoads]
    exact ih (loadData c.page c.filter c.now c.net s)

/-- A `loadData` call with page ≠ 1 only ever extends the accumulated list:
the previous entries survive unchanged at their positions and anything new
is appended after them (cache hit, network success and network failure
alike). -/
theorem loadData_extends_characters (page : Nat) (filter : Option CharacterFilter)
    (now : Nat) (net : FetchOutcome) (s : HookState) (hpage : page ≠ 1) :
    ∃ ext, (loadData page filter now net s).characters = s.characters ++ ext := by
  cases hl : (s.cache.get now (getCacheKey page filter)).1 with
  | some v =>
    rw [loadData_hit_eq page filter now net s v hl]
    split
    · exact ⟨v, by simp [hpage]⟩
    · exact ⟨v, by simp [hpage]⟩
  | none =>
    cases net with
    | success response =>
      rw [loadData_miss_success_eq page filter now response s hl]
      refine ⟨response.results.filter
        (fun c => decide (c.id ∉ s.characters.map (fun x => x.id))), ?_⟩
      simp [hpage]
    | failure e =>
      rw [loadData_miss_failure_eq page filter now e s hl]
      exact ⟨[], by simp⟩

/-- A run of calls none of which loads page 1 only ever extends the
accumulated list. -/
theorem runLoads_extends_characters :
    ∀ (w : List LoadCall) (s : HookState), (∀ c ∈ w, c.page ≠ 1) →
      ∃ ext, (runLoads s w).characters = s.characters ++ ext
  | [], s, _ => ⟨[], by simp [runLoads]⟩
  | c :: rest, s, h => by
    obtain ⟨e1, he1⟩ := loadData_extends_characters c.page c.filter c.now c.net s
      (h c (List.mem_cons_self c rest))
    obtain ⟨e2, he2⟩ := runLoads_extends_characters rest
      (loadData c.page c.filter c.now c.net s)
      (fun c' h' => h c' (List.mem_cons_of_mem c h'))
    refine ⟨e1 ++ e2, ?_⟩
    show (runLoads (loadData c.page c.filter c.now c.net s) rest).characters = _
    rw [he2, he1, List.append_assoc]

/-- C1 (amended): starting from the initial state, a sequence of `load`
calls never puts two entries with the same identifier into the accumulated
list, provided every fetched page carries pairwise-distinct identifiers and
every appending call (page ≠ 1) is served from the network; and entries
keep their first-seen positions — after any initial segment of the calls,
the list at that point survives unchanged as an initial segment of every
later list as long as no later call loads page 1 (a page-1 load replaces
the list wholesale). A page > 1 load served from the cache appends the
cached items without deduplication and can introduce duplicates. -/
theorem claim1_dedup_amended (trace : List LoadCall)
    (hnet : ∀ c ∈ trace, callNetNodup c = true)
    (hsrc : appendsServedByNetwork initialState trace = true) :
    (characterIds (runLoads initialState trace).characters).Nodup ∧
    (∀ u w : List LoadCall, trace = u ++ w → (∀ c ∈ w, c.page ≠ 1) →
      ∃ ext, (runLoads initialState trace).characters =
        (runLoads initialState u).characters ++ ext) := by
  constructor
  · exact (runLoads_preserves_ids trace initialState
      (by simp [characterIds, initialState])
      (by intro p hp; simp [initialState, SearchCache.make] at hp) hnet hsrc).1
  · intro u w htrace hw
    subst htrace
    rw [runLoads_append initialState u w]
    exact runLoads_extends_characters w (runLoads initialState u) hw

/-- A closed instance of the amended dedup theorem: pages 1 and 2 both
fetched from the network yield the duplicate-free identifier list, and the
page-1 list survives the page-2 load as an initial segment. -/
theorem claim1_dedup_amended_witness :
    (∀ c ∈ claim2Trace, callNetNodup c = true) ∧
    appendsServedByNetwork initialState claim2Trace = true ∧
    (characterIds (runLoads initialState claim2Trace).characters).Nodup ∧
    (∃ ext, (runLoads initialState claim2Trace).characters =
      (runLoads initialState (claim2Trace.take 1)).characters ++ ext) := by
  have h := claim1_dedup_amended claim2Trace (by decide) (by decide)
  exact ⟨by decide, by decide, h.1,
    h.2 (claim2Trace.take 1) (claim2Trace.drop 1) (by decide) (by decide)⟩

end Blossom
